import Mathlib

/-!
Verification of the NutriScan malnutrition-assessment engine.

The definitions below are a shallow embedding of the Python source:
* `app/predict/who_standards.py` — WHO growth reference table,
  `WHOStandards.calculate_bmi_percentile_and_zscore`, `WHOStandards.get_bmi_category`
  and `MalnutritionRiskAssessment.calculate_risk_score`;
* `app/predict/model.py` — the nearest-centroid image health classifier
  (`_nearest_centroid`) and the heuristic-fallback selection logic
  (`_compute_centroids` / `predict_nail` / `predict_skin`).

Conventions of the embedding: Python real arithmetic is exact rational (`ℚ`)
arithmetic, except the classifier's distances/confidences which live in `ℝ`
(they involve `sqrt` and `exp`); Python `int(...)` truncation is `pyInt`;
`raise` and `try/except` become `Option`; the `np.random.standard_normal(10000)`
draw inside the z-score computation is made explicit as a `samples : List ℚ`
argument, so the source's dependence on the random stream is visible; numpy's
domain check in `np.percentile` (ValueError for q outside [0, 100]) is modelled
as `none`.
-/

set_option maxHeartbeats 2000000

/-- Python `int(x)` truncation toward zero on a rational. -/
def pyInt (q : ℚ) : ℤ := Int.tdiv q.num (q.den : ℤ)

/-- Whether the first character list is an initial segment of the second. -/
def listStartsWith : List Char → List Char → Bool
  | [], _ => true
  | _ :: _, [] => false
  | a :: u, b :: v => a == b && listStartsWith u v

/-- Whether `sub` occurs contiguously inside the second list. -/
def listHasSub (sub : List Char) : List Char → Bool
  | [] => listStartsWith sub []
  | b :: t => listStartsWith sub (b :: t) || listHasSub sub t

/-- Python's substring test `sub in s`. -/
def pyIn (sub s : String) : Bool := listHasSub sub.toList s.toList

/-- ASCII lower-casing of one character, as Python's `str.lower` does on ASCII. -/
def lowerChar (c : Char) : Char :=
  if 'A' ≤ c ∧ c ≤ 'Z' then Char.ofNat (c.toNat + 32) else c

/-- Python `s.lower()` for the ASCII strings used by the engine. -/
def pyLower (s : String) : String := ⟨s.data.map lowerChar⟩

/-- The `ages` row of `WHOStandards.BMI_REFERENCE_DATA` (identical for both genders). -/
def agesList : List ℚ := [2, 3, 4, 5, 6, 7, 8, 9, 10, 11, 12, 13, 14, 15, 16, 17, 18, 19]

/-- Male BMI-for-age reference rows p3, p5, p10, p25, p50, p75, p90, p95, p97
from `WHOStandards.BMI_REFERENCE_DATA['male']`. -/
def maleRows : List (List ℚ) :=
  [[14.1, 13.9, 13.8, 13.7, 13.6, 13.5, 13.4, 13.3, 13.2, 13.1, 13.0, 12.9, 12.8, 12.7, 12.6, 12.5, 12.4, 12.3],
   [14.5, 14.3, 14.2, 14.1, 14.0, 13.9, 13.8, 13.7, 13.6, 13.5, 13.4, 13.3, 13.2, 13.1, 13.0, 12.9, 12.8, 12.7],
   [15.0, 14.8, 14.7, 14.6, 14.5, 14.4, 14.3, 14.2, 14.1, 14.0, 13.9, 13.8, 13.7, 13.6, 13.5, 13.4, 13.3, 13.2],
   [15.8, 15.6, 15.5, 15.4, 15.3, 15.2, 15.1, 15.0, 14.9, 14.8, 14.7, 14.6, 14.5, 14.4, 14.3, 14.2, 14.1, 14.0],
   [16.5, 16.3, 16.2, 16.1, 16.0, 15.9, 15.8, 15.7, 15.6, 15.5, 15.4, 15.3, 15.2, 15.1, 15.0, 14.9, 14.8, 14.7],
   [17.3, 17.1, 17.0, 16.9, 16.8, 16.7, 16.6, 16.5, 16.4, 16.3, 16.2, 16.1, 16.0, 15.9, 15.8, 15.7, 15.6, 15.5],
   [18.2, 18.0, 17.9, 17.8, 17.7, 17.6, 17.5, 17.4, 17.3, 17.2, 17.1, 17.0, 16.9, 16.8, 16.7, 16.6, 16.5, 16.4],
   [19.0, 18.8, 18.7, 18.6, 18.5, 18.4, 18.3, 18.2, 18.1, 18.0, 17.9, 17.8, 17.7, 17.6, 17.5, 17.4, 17.3, 17.2],
   [19.8, 19.6, 19.5, 19.4, 19.3, 19.2, 19.1, 19.0, 18.9, 18.8, 18.7, 18.6, 18.5, 18.4, 18.3, 18.2, 18.1, 18.0]]

/-- Female BMI-for-age reference rows from `WHOStandards.BMI_REFERENCE_DATA['female']`. -/
def femaleRows : List (List ℚ) :=
  [[13.9, 13.7, 13.6, 13.5, 13.4, 13.3, 13.2, 13.1, 13.0, 12.9, 12.8, 12.7, 12.6, 12.5, 12.4, 12.3, 12.2, 12.1],
   [14.3, 14.1, 14.0, 13.9, 13.8, 13.7, 13.6, 13.5, 13.4, 13.3, 13.2, 13.1, 13.0, 12.9, 12.8, 12.7, 12.6, 12.5],
   [14.8, 14.6, 14.5, 14.4, 14.3, 14.2, 14.1, 14.0, 13.9, 13.8, 13.7, 13.6, 13.5, 13.4, 13.3, 13.2, 13.1, 13.0],
   [15.6, 15.4, 15.3, 15.2, 15.1, 15.0, 14.9, 14.8, 14.7, 14.6, 14.5, 14.4, 14.3, 14.2, 14.1, 14.0, 13.9, 13.8],
   [16.3, 16.1, 16.0, 15.9, 15.8, 15.7, 15.6, 15.5, 15.4, 15.3, 15.2, 15.1, 15.0, 14.9, 14.8, 14.7, 14.6, 14.5],
   [17.1, 16.9, 16.8, 16.7, 16.6, 16.5, 16.4, 16.3, 16.2, 16.1, 16.0, 15.9, 15.8, 15.7, 15.6, 15.5, 15.4, 15.3],
   [18.0, 17.8, 17.7, 17.6, 17.5, 17.4, 17.3, 17.2, 17.1, 17.0, 16.9, 16.8, 16.7, 16.6, 16.5, 16.4, 16.3, 16.2],
   [18.8, 18.6, 18.5, 18.4, 18.3, 18.2, 18.1, 18.0, 17.9, 17.8, 17.7, 17.6, 17.5, 17.4, 17.3, 17.2, 17.1, 17.0],
   [19.6, 19.4, 19.3, 19.2, 19.1, 19.0, 18.9, 18.8, 18.7, 18.6, 18.5, 18.4, 18.3, 18.2, 18.1, 18.0, 17.9, 17.8]]

/-- Numeric labels of the nine percentile bands p3 … p97. -/
def bandPercents : List ℚ := [3, 5, 10, 25, 50, 75, 90, 95, 97]

/-- The nine band thresholds at age-knot `i`: `[gender_data[p][age_idx] for p in percentiles]`. -/
def valsAt (rows : List (List ℚ)) (i : Nat) : List ℚ := rows.map (fun r => r.getD i 0)

/-- Accumulator loop of `np.argmin(np.abs(ages - age_years))`: first index of minimal
absolute difference. -/
def argminAbsAux (x : ℚ) : List ℚ → Nat → Nat → ℚ → Nat
  | [], _, bi, _ => bi
  | a :: t, i, bi, bd =>
    if |a - x| < bd then argminAbsAux x t (i + 1) i |a - x|
    else argminAbsAux x t (i + 1) bi bd

/-- Index of the first element of `xs` with minimal `|a - x|` (numpy argmin). -/
def argminAbs (x : ℚ) (xs : List ℚ) : Nat :=
  match xs with
  | [] => 0
  | a :: t => argminAbsAux x t 1 0 |a - x|

/-- The bracket-search loop of `calculate_bmi_percentile_and_zscore` (lines 80-87):
first pair of adjacent bands whose thresholds bracket `bmi`, linear interpolation
between them; 50 if no bracket matches (the `for … else` default). -/
def interpolateChain (bmi : ℚ) : List (ℚ × ℚ) → ℚ
  | a :: b :: rest =>
    if a.1 ≤ bmi ∧ bmi ≤ b.1 then a.2 + (b.2 - a.2) * (bmi - a.1) / (b.1 - a.1)
    else interpolateChain bmi (b :: rest)
  | _ => 50

/-- Percentile from the nine band thresholds (`who_standards.py` lines 74-87):
linear scaling below p3, unbounded linear extrapolation above p97, bracketed
linear interpolation in between. -/
def percentileFromValues (vals : List ℚ) (bmi : ℚ) : ℚ :=
  let v0 := vals.getD 0 0
  let v8 := vals.getD (vals.length - 1) 0
  if bmi ≤ v0 then 3 * (bmi / v0)
  else if v8 ≤ bmi then 97 + 3 * (bmi - v8) / v8
  else interpolateChain bmi (vals.zip bandPercents)

/-- Percentile part of `WHOStandards.calculate_bmi_percentile_and_zscore`
(`who_standards.py` lines 44-87): `none` models the two `raise ValueError` guards. -/
def calculate_bmi_percentile (age_years bmi : ℚ) (gender : String) : Option ℚ :=
  if pyLower gender ≠ "male" ∧ pyLower gender ≠ "female" then none
  else if age_years < 2 ∨ age_years > 19 then none
  else
    some (percentileFromValues
      (valsAt (if pyLower gender = "male" then maleRows else femaleRows)
        (argminAbs age_years agesList)) bmi)

/-- Insertion into a sorted list of rationals. -/
def insertSorted (x : ℚ) : List ℚ → List ℚ
  | [] => [x]
  | y :: t => if x ≤ y then x :: y :: t else y :: insertSorted x t

/-- Insertion sort on rationals (the sort inside `np.percentile`). -/
def sortRat (l : List ℚ) : List ℚ := l.foldr insertSorted []

/-- Model of `np.percentile(data, q)` with numpy's default linear interpolation:
sort, take position `q/100 * (n-1)`, interpolate between the neighbouring entries.
`none` models numpy's errors: the domain check that raises
"Percentiles must be in the range [0, 100]" when `q` is outside [0, 100], and the
error on an empty data array. -/
def npPercentile (data : List ℚ) (q : ℚ) : Option ℚ :=
  if q < 0 ∨ 100 < q then none
  else
    match sortRat data with
    | [] => none
    | h :: t =>
      let s := h :: t
      let n := s.length
      let pos := q * ((n : ℚ) - 1) / 100
      let i := (pyInt pos).toNat
      let frac := pos - (i : ℚ)
      let lo := s.getD i 0
      let hi := s.getD (min (i + 1) (n - 1)) 0
      some (lo + frac * (hi - lo))

/-- The z-score computation of `who_standards.py` lines 91-94, with the draw
`np.random.standard_normal(10000)` made explicit as the `samples` argument:
`-|np.percentile(samples, percentile)|` when percentile ≤ 50, else
`|np.percentile(samples, 100 - percentile)|`. `none` propagates the ValueError
that `np.percentile` raises when the passed q falls outside [0, 100], which
happens exactly when the percentile is below 0 or above 100. -/
def z_score_from_samples (samples : List ℚ) (percentile : ℚ) : Option ℚ :=
  if percentile ≤ 50 then (npPercentile samples percentile).map (fun v => -|v|)
  else (npPercentile samples (100 - percentile)).map (fun v => |v|)

/-- `WHOStandards.calculate_bmi_percentile_and_zscore`, with the random normal
sample stream passed explicitly. -/
def calculate_bmi_percentile_and_zscore (age_years bmi : ℚ) (gender : String)
    (samples : List ℚ) : Option (ℚ × ℚ) :=
  match calculate_bmi_percentile age_years bmi gender with
  | none => none
  | some p =>
    match z_score_from_samples samples p with
    | none => none
    | some z => some (p, z)

/-- `WHOStandards.get_bmi_category` (`who_standards.py` lines 98-133): percentile
thresholds on the primary path, adult BMI thresholds in the `except` fallback. -/
def get_bmi_category (bmi age_years : ℚ) (gender : String) : String :=
  match calculate_bmi_percentile age_years bmi gender with
  | some percentile =>
    if percentile < 5 then "Underweight"
    else if percentile < 85 then "Normal"
    else if percentile < 97 then "Overweight"
    else "Obese"
  | none =>
    if bmi < 18.5 then "Underweight"
    else if bmi < 25 then "Normal"
    else if bmi < 30 then "Overweight"
    else "Obese"

/-- Result record of `MalnutritionRiskAssessment.calculate_risk_score`. -/
structure RiskAssessment where
  risk_score : ℤ
  risk_level : String
  bmi_risk : ℤ
  z_score_risk : ℤ
  skin_risk : ℤ
  nail_risk : ℤ

/-- BMI-percentile contribution of the risk scorer (`who_standards.py` lines 166-176). -/
def bmiRiskTerm (bmi_percentile : ℚ) : ℤ :=
  if bmi_percentile < 5 then 40
  else if bmi_percentile < 10 then 30
  else if bmi_percentile < 25 then 20
  else if 97 ≤ bmi_percentile then 35
  else if 85 ≤ bmi_percentile then 25
  else 0

/-- Z-score contribution of the risk scorer (`who_standards.py` lines 178-184). -/
def zRiskTerm (bmi_z_score : ℚ) : ℤ :=
  if 2 < |bmi_z_score| then 20
  else if 1.5 < |bmi_z_score| then 15
  else if 1 < |bmi_z_score| then 10
  else 0

/-- Skin/nail contribution of the risk scorer (`who_standards.py` lines 186-196):
`int(20*(1-confidence))` when the label contains `"unhealthy"`,
else `int(5*(1-confidence))`. -/
def imageRiskTerm (health_label : String) (confidence : ℚ) : ℤ :=
  if pyIn "unhealthy" health_label then pyInt (20 * (1 - confidence))
  else pyInt (5 * (1 - confidence))

/-- Age multiplier of the risk scorer (`who_standards.py` lines 198-202). -/
def ageAdjust (age_years : ℚ) (s : ℤ) : ℤ :=
  if age_years < 5 then pyInt ((s : ℚ) * 1.2)
  else if 15 < age_years then pyInt ((s : ℚ) * 1.1)
  else s

/-- `MalnutritionRiskAssessment.calculate_risk_score` (`who_standards.py` lines 139-224). -/
def calculate_risk_score (bmi_percentile bmi_z_score : ℚ) (skin_health nail_health : String)
    (skin_confidence nail_confidence : ℚ) (age_years : ℚ) : RiskAssessment :=
  let total := ageAdjust age_years
    (bmiRiskTerm bmi_percentile + zRiskTerm bmi_z_score +
      imageRiskTerm skin_health skin_confidence + imageRiskTerm nail_health nail_confidence)
  let risk_score := min 100 total
  let risk_level :=
    if risk_score < 20 then "Low"
    else if risk_score < 40 then "Medium"
    else if risk_score < 60 then "High"
    else "Critical"
  { risk_score := risk_score
    risk_level := risk_level
    bmi_risk := min 40 risk_score
    z_score_risk := min 20 risk_score
    skin_risk := min 20 risk_score
    nail_risk := min 20 risk_score }

noncomputable section

/-- Euclidean distance of two feature vectors: `np.linalg.norm(feature - centroid)`. -/
def euclidDist (a b : List ℝ) : ℝ :=
  Real.sqrt (((a.zip b).map fun p => (p.1 - p.2) ^ 2).sum)

open Classical in
/-- One iteration of the loop in `_nearest_centroid` (`model.py` lines 140-146).
The accumulator `none` models the initial `best_class = None, best_dist = inf`
state: any finite distance beats infinity, so the first usable centroid always
replaces `none`. -/
def nearestStep (feature : List ℝ) (acc : Option (String × ℝ))
    (entry : String × Option (List ℝ)) : Option (String × ℝ) :=
  match entry.2 with
  | none => acc
  | some centroid =>
    let dist := euclidDist feature centroid
    match acc with
    | none => some (entry.1, dist)
    | some (best_class, best_dist) =>
      if dist < best_dist then some (entry.1, dist) else some (best_class, best_dist)

/-- `_nearest_centroid` (`model.py` lines 137-155). A `some` accumulator is exactly
the `np.isfinite(best_dist)` case: confidence `clamp(exp(-best_dist/100), 0.05, 0.99)`;
`none` (no usable centroid, `best_dist` still infinite) gives the first dict key and
confidence 0.5. -/
def nearest_centroid (feature : List ℝ)
    (class_to_centroid : List (String × Option (List ℝ))) : String × ℝ :=
  match class_to_centroid.foldl (nearestStep feature) none with
  | some (best_class, best_dist) =>
    (best_class, max 0.05 (min 0.99 (Real.exp (-best_dist / 100))))
  | none => ((class_to_centroid.map Prod.fst).getD 0 "", 0.5)

/-- The distances from `feature` to every usable (non-`None`) centroid, in map order. -/
def usableDists (feature : List ℝ)
    (class_to_centroid : List (String × Option (List ℝ))) : List (String × ℝ) :=
  class_to_centroid.filterMap fun p => p.2.map fun c => (p.1, euclidDist feature c)

end

/-- All centroids of one body-part map are `None` (`no_nail_centroids` / `no_skin_centroids`
in `_compute_centroids`, `model.py` lines 100-101). -/
def no_valid_centroids (class_to_centroid : List (String × Option (List ℝ))) : Bool :=
  class_to_centroid.all fun p => p.2.isNone

/-- `_has_valid_centroids` (`model.py` lines 113-114). -/
def has_valid_centroids (class_to_centroid : List (String × Option (List ℝ))) : Bool :=
  class_to_centroid.any fun p => p.2.isSome

/-- The single process-global flag `_use_heuristic_fallback = no_nail_centroids or
no_skin_centroids` (`model.py` line 102). -/
def use_heuristic_fallback (nail_map skin_map : List (String × Option (List ℝ))) : Bool :=
  no_valid_centroids nail_map || no_valid_centroids skin_map

/-- The guard of `predict_skin` (`model.py` line 174): heuristic path iff the global
flag is set or the skin map has no usable centroid. -/
def predict_skin_uses_heuristic (nail_map skin_map : List (String × Option (List ℝ))) : Bool :=
  use_heuristic_fallback nail_map skin_map || !has_valid_centroids skin_map

/-- The guard of `predict_nail` (`model.py` line 161). -/
def predict_nail_uses_heuristic (nail_map skin_map : List (String × Option (List ℝ))) : Bool :=
  use_heuristic_fallback nail_map skin_map || !has_valid_centroids nail_map

/-- Adjacent pairs of a threshold/percentile chain are strictly increasing in the
threshold and non-decreasing in the percentile label. -/
def SortedChain (l : List (ℚ × ℚ)) : Prop :=
  List.Chain' (fun a b => a.1 < b.1 ∧ a.2 ≤ b.2) l

/-- Threshold of the last band of a chain. -/
def endF (l : List (ℚ × ℚ)) : ℚ := ((l.getLast?).map Prod.fst).getD 0

/-- Percentile label of the last band of a chain. -/
def endS (l : List (ℚ × ℚ)) : ℚ := ((l.getLast?).map Prod.snd).getD 0

theorem pyInt_nonneg {q : ℚ} (h : 0 ≤ q) : 0 ≤ pyInt q := by
  unfold pyInt
  have hnum : 0 ≤ q.num := Rat.num_nonneg.mpr h
  obtain ⟨m, hm⟩ := Int.eq_ofNat_of_zero_le hnum
  rw [hm, ← Int.ofNat_tdiv]
  exact Int.ofNat_nonneg _

theorem pyInt_intCast (n : ℤ) : pyInt ((n : ℤ) : ℚ) = n := by
  rw [pyInt, Rat.num_intCast, Rat.den_intCast]
  exact Int.tdiv_one n

theorem bmiRiskTerm_nonneg (p : ℚ) : 0 ≤ bmiRiskTerm p := by
  unfold bmiRiskTerm; split_ifs <;> norm_num

theorem zRiskTerm_nonneg (z : ℚ) : 0 ≤ zRiskTerm z := by
  unfold zRiskTerm; split_ifs <;> norm_num

theorem imageRiskTerm_nonneg (lab : String) {c : ℚ} (h : c ≤ 1) :
    0 ≤ imageRiskTerm lab c := by
  unfold imageRiskTerm
  have h20 : (0 : ℚ) ≤ 20 * (1 - c) := by nlinarith
  have h5 : (0 : ℚ) ≤ 5 * (1 - c) := by nlinarith
  split_ifs
  · exact pyInt_nonneg h20
  · exact pyInt_nonneg h5

theorem ageAdjust_nonneg (a : ℚ) {s : ℤ} (h : 0 ≤ s) : 0 ≤ ageAdjust a s := by
  unfold ageAdjust
  have hs : (0 : ℚ) ≤ (s : ℚ) := by exact_mod_cast h
  split_ifs
  · exact pyInt_nonneg (by nlinarith)
  · exact pyInt_nonneg (by nlinarith)
  · exact h

theorem interpolateChain_cons_cons (bmi : ℚ) (a b : ℚ × ℚ) (rest : List (ℚ × ℚ)) :
    interpolateChain bmi (a :: b :: rest) =
      if a.1 ≤ bmi ∧ bmi ≤ b.1 then a.2 + (b.2 - a.2) * (bmi - a.1) / (b.1 - a.1)
      else interpolateChain bmi (b :: rest) := rfl

theorem endF_cons_cons (a b : ℚ × ℚ) (l : List (ℚ × ℚ)) :
    endF (a :: b :: l) = endF (b :: l) := by
  simp [endF, List.getLast?_cons_cons]

theorem endS_cons_cons (a b : ℚ × ℚ) (l : List (ℚ × ℚ)) :
    endS (a :: b :: l) = endS (b :: l) := by
  simp [endS, List.getLast?_cons_cons]

theorem le_endS : ∀ (l : List (ℚ × ℚ)) (v p : ℚ), SortedChain ((v, p) :: l) →
    p ≤ endS ((v, p) :: l) := by
  intro l
  induction l with
  | nil => intro v p _; simp [endS]
  | cons b t ih =>
    intro v p h
    obtain ⟨w, q⟩ := b
    rw [SortedChain, List.chain'_cons] at h
    rw [endS_cons_cons]
    exact h.1.2.trans (ih w q h.2)

theorem interpVal_bounds (v w p q bmi : ℚ) (hvw : v < w) (hpq : p ≤ q)
    (h1 : v ≤ bmi) (h2 : bmi ≤ w) :
    p ≤ p + (q - p) * (bmi - v) / (w - v) ∧ p + (q - p) * (bmi - v) / (w - v) ≤ q := by
  have hw : (0 : ℚ) < w - v := by linarith
  constructor
  · have : 0 ≤ (q - p) * (bmi - v) / (w - v) :=
      div_nonneg (mul_nonneg (by linarith) (by linarith)) hw.le
    linarith
  · have h3 : (q - p) * (bmi - v) / (w - v) ≤ q - p := by
      rw [div_le_iff₀ hw]
      nlinarith
    linarith

theorem interpolateChain_bounds (bmi : ℚ) :
    ∀ (l : List (ℚ × ℚ)) (v p : ℚ), SortedChain ((v, p) :: l) → l ≠ [] →
      v ≤ bmi → bmi ≤ endF ((v, p) :: l) →
      p ≤ interpolateChain bmi ((v, p) :: l) ∧
        interpolateChain bmi ((v, p) :: l) ≤ endS ((v, p) :: l) := by
  intro l
  induction l with
  | nil => intro v p _ hne; exact absurd rfl hne
  | cons b t ih =>
    intro v p hchain _ hv hend
    obtain ⟨w, q⟩ := b
    rw [SortedChain, List.chain'_cons] at hchain
    obtain ⟨⟨hvw, hpq⟩, hchain'⟩ := hchain
    rw [interpolateChain_cons_cons]
    by_cases hc : v ≤ bmi ∧ bmi ≤ w
    · rw [if_pos hc]
      have hb := interpVal_bounds v w p q bmi hvw hpq hc.1 hc.2
      refine ⟨hb.1, hb.2.trans ?_⟩
      rw [endS_cons_cons]
      exact le_endS t w q hchain'
    · rw [if_neg hc]
      push_neg at hc
      have hw : w < bmi := hc hv
      have ht : t ≠ [] := by
        intro h
        subst h
        rw [endF_cons_cons] at hend
        simp [endF] at hend
        linarith
      rw [endF_cons_cons] at hend
      have := ih w q hchain' ht hw.le hend
      rw [endS_cons_cons]
      exact ⟨hpq.trans this.1, this.2⟩

theorem interpolateChain_mono (b1 b2 : ℚ) (hb : b1 ≤ b2) :
    ∀ (l : List (ℚ × ℚ)) (v p : ℚ), SortedChain ((v, p) :: l) → l ≠ [] →
      v ≤ b1 → b2 ≤ endF ((v, p) :: l) →
      interpolateChain b1 ((v, p) :: l) ≤ interpolateChain b2 ((v, p) :: l) := by
  intro l
  induction l with
  | nil => intro v p _ hne; exact absurd rfl hne
  | cons c t ih =>
    intro v p hchain _ hv hend
    obtain ⟨w, q⟩ := c
    rw [SortedChain, List.chain'_cons] at hchain
    obtain ⟨⟨hvw, hpq⟩, hchain'⟩ := hchain
    rw [interpolateChain_cons_cons, interpolateChain_cons_cons]
    by_cases hc1 : b1 ≤ w
    · rw [if_pos ⟨hv, hc1⟩]
      by_cases hc2 : b2 ≤ w
      · rw [if_pos ⟨hv.trans hb, hc2⟩]
        have hw : (0 : ℚ) < w - v := by linarith
        have hmul : (q - p) * (b1 - v) ≤ (q - p) * (b2 - v) :=
          mul_le_mul_of_nonneg_left (by linarith) (by linarith)
        have := (div_le_div_iff_of_pos_right hw).mpr hmul
        linarith
      · push_neg at hc2
        rw [if_neg (fun h => absurd h.2 (not_le.mpr hc2))]
        have ht : t ≠ [] := by
          intro h
          subst h
          rw [endF_cons_cons] at hend
          simp [endF] at hend
          linarith
        rw [endF_cons_cons] at hend
        have hlow := interpolateChain_bounds b2 t w q hchain' ht hc2.le hend
        have hhigh := interpVal_bounds v w p q b1 hvw hpq hv hc1
        exact hhigh.2.trans hlow.1
    · push_neg at hc1
      rw [if_neg (fun h => absurd h.2 (not_le.mpr hc1)),
          if_neg (fun h => absurd h.2 (not_le.mpr (lt_of_lt_of_le hc1 hb)))]
      have ht : t ≠ [] := by
        intro h
        subst h
        rw [endF_cons_cons] at hend
        simp [endF] at hend
        linarith
      rw [endF_cons_cons] at hend
      exact ih w q hchain' ht hc1.le hend

theorem percentileFromValues_nine (x0 x1 x2 x3 x4 x5 x6 x7 x8 bmi : ℚ) :
    percentileFromValues [x0, x1, x2, x3, x4, x5, x6, x7, x8] bmi =
      if bmi ≤ x0 then 3 * (bmi / x0)
      else if x8 ≤ bmi then 97 + 3 * (bmi - x8) / x8
      else interpolateChain bmi
        [(x0, 3), (x1, 5), (x2, 10), (x3, 25), (x4, 50), (x5, 75), (x6, 90), (x7, 95), (x8, 97)] :=
  rfl

theorem percentileFromValues_mono (x0 x1 x2 x3 x4 x5 x6 x7 x8 : ℚ)
    (h0 : 0 < x0)
    (hs : SortedChain
      [(x0, 3), (x1, 5), (x2, 10), (x3, 25), (x4, 50), (x5, 75), (x6, 90), (x7, 95), (x8, 97)])
    (b1 b2 : ℚ) (hb : b1 ≤ b2) :
    percentileFromValues [x0, x1, x2, x3, x4, x5, x6, x7, x8] b1 ≤
      percentileFromValues [x0, x1, x2, x3, x4, x5, x6, x7, x8] b2 := by
  have hc := hs
  rw [SortedChain] at hc
  simp only [List.chain'_cons, List.chain'_singleton, and_true] at hc
  obtain ⟨⟨h01, -⟩, ⟨h12, -⟩, ⟨h23, -⟩, ⟨h34, -⟩, ⟨h45, -⟩, ⟨h56, -⟩, ⟨h67, -⟩, ⟨h78, -⟩⟩ := hc
  have hx8 : (0 : ℚ) < x8 := by linarith
  have hendF : endF
      [(x0, 3), (x1, 5), (x2, 10), (x3, 25), (x4, 50), (x5, 75), (x6, 90), (x7, 95), (x8, 97)]
      = x8 := rfl
  have hendS : endS
      [(x0, 3), (x1, 5), (x2, 10), (x3, 25), (x4, 50), (x5, 75), (x6, 90), (x7, 95), (x8, 97)]
      = 97 := rfl
  rw [percentileFromValues_nine, percentileFromValues_nine]
  rcases le_or_lt b1 x0 with h1 | h1
  · rw [if_pos h1]
    rcases le_or_lt b2 x0 with h2 | h2
    · rw [if_pos h2]
      have := (div_le_div_iff_of_pos_right h0).mpr hb
      linarith
    · rw [if_neg (not_le.mpr h2)]
      have hval1 : 3 * (b1 / x0) ≤ 3 := by
        have : b1 / x0 ≤ 1 := (div_le_one h0).mpr h1
        linarith
      rcases le_or_lt x8 b2 with h3 | h3
      · rw [if_pos h3]
        have : (0 : ℚ) ≤ 3 * (b2 - x8) / x8 :=
          div_nonneg (by nlinarith) hx8.le
        linarith
      · rw [if_neg (not_le.mpr h3)]
        have hbnd := interpolateChain_bounds b2 _ x0 3 hs (by simp) h2.le
          (by rw [hendF]; exact h3.le)
        linarith [hbnd.1]
  · rw [if_neg (not_le.mpr h1)]
    have h2 : x0 < b2 := lt_of_lt_of_le h1 hb
    rw [if_neg (not_le.mpr h2)]
    rcases le_or_lt x8 b1 with h3 | h3
    · rw [if_pos h3, if_pos (h3.trans hb)]
      have : 3 * (b1 - x8) / x8 ≤ 3 * (b2 - x8) / x8 :=
        (div_le_div_iff_of_pos_right hx8).mpr (by linarith)
      linarith
    · rw [if_neg (not_le.mpr h3)]
      rcases le_or_lt x8 b2 with h4 | h4
      · rw [if_pos h4]
        have hbnd := interpolateChain_bounds b1 _ x0 3 hs (by simp) h1.le
          (by rw [hendF]; exact h3.le)
        have : (0 : ℚ) ≤ 3 * (b2 - x8) / x8 :=
          div_nonneg (by nlinarith) hx8.le
        have hup : interpolateChain b1
            [(x0, 3), (x1, 5), (x2, 10), (x3, 25), (x4, 50), (x5, 75), (x6, 90), (x7, 95), (x8, 97)]
            ≤ 97 := by rw [← hendS]; exact hbnd.2
        linarith
      · rw [if_neg (not_le.mpr h4)]
        exact interpolateChain_mono b1 b2 hb _ x0 3 hs (by simp) h1.le
          (by rw [hendF]; exact h4.le)

theorem argminAbsAux_lt (x : ℚ) : ∀ (xs : List ℚ) (i bi : Nat) (bd : ℚ), bi < i →
    argminAbsAux x xs i bi bd < i + xs.length := by
  intro xs
  induction xs with
  | nil => intro i bi bd h; simpa [argminAbsAux] using h
  | cons a t ih =>
    intro i bi bd h
    rw [argminAbsAux]
    split_ifs with hc
    · have := ih (i + 1) i |a - x| (Nat.lt_succ_self i)
      simp only [List.length_cons]
      omega
    · have := ih (i + 1) bi bd (h.trans (Nat.lt_succ_self i))
      simp only [List.length_cons]
      omega

theorem argminAbs_lt (x a : ℚ) (t : List ℚ) :
    argminAbs x (a :: t) < (a :: t).length := by
  have h := argminAbsAux_lt x t 1 0 |a - x| Nat.zero_lt_one
  simpa [argminAbs, Nat.add_comm] using h

theorem percentileFromValues_mono' (vals : List ℚ) (hlen : vals.length = 9)
    (h0 : 0 < vals.getD 0 0) (hs : SortedChain (vals.zip bandPercents))
    (b1 b2 : ℚ) (hb : b1 ≤ b2) :
    percentileFromValues vals b1 ≤ percentileFromValues vals b2 := by
  rcases vals with _ | ⟨x0, _ | ⟨x1, _ | ⟨x2, _ | ⟨x3, _ | ⟨x4, _ | ⟨x5, _ | ⟨x6, _ | ⟨x7, _ | ⟨x8, _ | ⟨x9, rest⟩⟩⟩⟩⟩⟩⟩⟩⟩⟩ <;>
    first
      | (exact percentileFromValues_mono x0 x1 x2 x3 x4 x5 x6 x7 x8 h0 hs b1 b2 hb)
      | (exfalso; simp at hlen)

theorem maleRows_ok : ∀ i, i < 18 →
    0 < (valsAt maleRows i).getD 0 0 ∧ SortedChain ((valsAt maleRows i).zip bandPercents) := by
  intro i hi
  interval_cases i <;>
    norm_num [valsAt, maleRows, bandPercents, SortedChain, List.chain'_cons]

theorem femaleRows_ok : ∀ i, i < 18 →
    0 < (valsAt femaleRows i).getD 0 0 ∧ SortedChain ((valsAt femaleRows i).zip bandPercents) := by
  intro i hi
  interval_cases i <;>
    norm_num [valsAt, femaleRows, bandPercents, SortedChain, List.chain'_cons]

theorem valsAt_length (rows : List (List ℚ)) (i : Nat) :
    (valsAt rows i).length = rows.length := by
  simp [valsAt]

theorem insertSorted_ne_nil (x : ℚ) (l : List ℚ) : insertSorted x l ≠ [] := by
  cases l with
  | nil => simp [insertSorted]
  | cons y t =>
    rw [insertSorted]
    split_ifs <;> simp

theorem sortRat_ne_nil (l : List ℚ) (h : l ≠ []) : sortRat l ≠ [] := by
  cases l with
  | nil => exact absurd rfl h
  | cons a t => exact insertSorted_ne_nil a (sortRat t)

theorem npPercentile_eq_none_iff (data : List ℚ) (hd : sortRat data ≠ []) (q : ℚ) :
    npPercentile data q = none ↔ (q < 0 ∨ 100 < q) := by
  unfold npPercentile
  split_ifs with h
  · simpa using h
  · rcases hsort : sortRat data with _ | ⟨a, t⟩
    · exact absurd hsort hd
    · simp [h]

theorem z_score_from_samples_none_iff (samples : List ℚ) (hs : samples ≠ []) (p : ℚ) :
    z_score_from_samples samples p = none ↔ (p < 0 ∨ 100 < p) := by
  have hd : sortRat samples ≠ [] := sortRat_ne_nil samples hs
  unfold z_score_from_samples
  split_ifs with h1
  · rw [Option.map_eq_none', npPercentile_eq_none_iff samples hd p]
  · rw [Option.map_eq_none', npPercentile_eq_none_iff samples hd (100 - p)]
    push_neg at h1
    constructor
    · rintro (h | h)
      · exact Or.inr (by linarith)
      · exact Or.inl (by linarith)
    · rintro (h | h)
      · exact Or.inr (by linarith)
      · exact Or.inl (by linarith)

theorem calculate_bmi_percentile_none_iff (age_years bmi : ℚ) (gender : String) :
    calculate_bmi_percentile age_years bmi gender = none ↔
      ((pyLower gender ≠ "male" ∧ pyLower gender ≠ "female") ∨
        age_years < 2 ∨ age_years > 19) := by
  unfold calculate_bmi_percentile
  split_ifs with h1 h2
  · simpa using Or.inl h1
  · simpa using Or.inr h2
  · constructor
    · intro h
      simp at h
    · rintro (hr | hr)
      · exact absurd hr h1
      · exact absurd hr h2

theorem nearestStep_none_entry (feature : List ℝ) (acc : Option (String × ℝ)) (name : String) :
    nearestStep feature acc (name, none) = acc := rfl

theorem nearestStep_some_none (feature : List ℝ) (name : String) (cv : List ℝ) :
    nearestStep feature none (name, some cv) = some (name, euclidDist feature cv) := rfl

open Classical in
theorem nearestStep_some_some (feature : List ℝ) (c0 : String) (d0 : ℝ) (name : String)
    (cv : List ℝ) :
    nearestStep feature (some (c0, d0)) (name, some cv) =
      if euclidDist feature cv < d0 then some (name, euclidDist feature cv)
      else some (c0, d0) := rfl

theorem usableDists_cons_none (feature : List ℝ) (name : String)
    (t : List (String × Option (List ℝ))) :
    usableDists feature ((name, none) :: t) = usableDists feature t := by
  simp [usableDists]

theorem usableDists_cons_some (feature : List ℝ) (name : String) (cv : List ℝ)
    (t : List (String × Option (List ℝ))) :
    usableDists feature ((name, some cv) :: t) =
      (name, euclidDist feature cv) :: usableDists feature t := by
  simp [usableDists]

theorem foldl_nearestStep_some (feature : List ℝ) :
    ∀ (l : List (String × Option (List ℝ))) (c0 : String) (d0 : ℝ),
      ∃ c d, l.foldl (nearestStep feature) (some (c0, d0)) = some (c, d) ∧ d ≤ d0 ∧
        ((c, d) = (c0, d0) ∨ (c, d) ∈ usableDists feature l) ∧
        ∀ q ∈ usableDists feature l, d ≤ q.2 := by
  intro l
  induction l with
  | nil =>
    intro c0 d0
    exact ⟨c0, d0, rfl, le_refl _, Or.inl rfl, by simp [usableDists]⟩
  | cons e t ih =>
    intro c0 d0
    obtain ⟨name, opt⟩ := e
    cases opt with
    | none =>
      obtain ⟨c, d, heq, hle, hmem, hmin⟩ := ih c0 d0
      refine ⟨c, d, ?_, hle, ?_, ?_⟩
      · rw [List.foldl_cons, nearestStep_none_entry]
        exact heq
      · rw [usableDists_cons_none]
        exact hmem
      · rw [usableDists_cons_none]
        exact hmin
    | some cv =>
      by_cases hlt : euclidDist feature cv < d0
      · obtain ⟨c, d, heq, hle, hmem, hmin⟩ := ih name (euclidDist feature cv)
        refine ⟨c, d, ?_, hle.trans hlt.le, ?_, ?_⟩
        · rw [List.foldl_cons, nearestStep_some_some, if_pos hlt]
          exact heq
        · rw [usableDists_cons_some]
          rcases hmem with h | h
          · exact Or.inr (h ▸ List.mem_cons_self _ _)
          · exact Or.inr (List.mem_cons_of_mem _ h)
        · rw [usableDists_cons_some]
          intro q hq
          rcases List.mem_cons.mp hq with h | h
          · rw [h]
            exact hle
          · exact hmin q h
      · obtain ⟨c, d, heq, hle, hmem, hmin⟩ := ih c0 d0
        refine ⟨c, d, ?_, hle, ?_, ?_⟩
        · rw [List.foldl_cons, nearestStep_some_some, if_neg hlt]
          exact heq
        · rw [usableDists_cons_some]
          rcases hmem with h | h
          · exact Or.inl h
          · exact Or.inr (List.mem_cons_of_mem _ h)
        · rw [usableDists_cons_some]
          intro q hq
          rcases List.mem_cons.mp hq with h | h
          · rw [h]
            push_neg at hlt
            exact hle.trans hlt
          · exact hmin q h

theorem foldl_nearestStep_of_usable (feature : List ℝ) :
    ∀ l : List (String × Option (List ℝ)), usableDists feature l ≠ [] →
      ∃ c d, l.foldl (nearestStep feature) none = some (c, d) ∧
        (c, d) ∈ usableDists feature l ∧ ∀ q ∈ usableDists feature l, d ≤ q.2 := by
  intro l
  induction l with
  | nil => intro h; exact absurd (by simp [usableDists]) h
  | cons e t ih =>
    intro hne
    obtain ⟨name, opt⟩ := e
    cases opt with
    | none =>
      rw [usableDists_cons_none] at hne
      obtain ⟨c, d, heq, hmem, hmin⟩ := ih hne
      refine ⟨c, d, ?_, ?_, ?_⟩
      · rw [List.foldl_cons, nearestStep_none_entry]
        exact heq
      · rw [usableDists_cons_none]
        exact hmem
      · rw [usableDists_cons_none]
        exact hmin
    | some cv =>
      obtain ⟨c, d, heq, hle, hmem, hmin⟩ :=
        foldl_nearestStep_some feature t name (euclidDist feature cv)
      refine ⟨c, d, ?_, ?_, ?_⟩
      · rw [List.foldl_cons, nearestStep_some_none]
        exact heq
      · rw [usableDists_cons_some]
        rcases hmem with h | h
        · exact h ▸ List.mem_cons_self _ _
        · exact List.mem_cons_of_mem _ h
      · rw [usableDists_cons_some]
        intro q hq
        rcases List.mem_cons.mp hq with h | h
        · rw [h]
          exact hle
        · exact hmin q h

/-- Claim C1 (counterexample): at percentile 50, z-score 0, both labels unhealthy,
both confidences 10 and age 10, the source's risk score is negative — the code caps
the score at 100 with `min(100, ...)` but never clamps it below at 0, so a
confidence above 1 drives the total negative and the claimed range [0, 100] fails. -/
theorem c1_risk_score_counterexample :
    (calculate_risk_score 50 0 "unhealthy_skin" "unhealthy_nails" 10 10 10).risk_score < 0 := by
  have ht : pyIn "unhealthy" "unhealthy_skin" = true := by decide
  have ht2 : pyIn "unhealthy" "unhealthy_nails" = true := by decide
  have h1 : imageRiskTerm "unhealthy_skin" 10 = -180 := by
    rw [imageRiskTerm, if_pos ht, show 20 * (1 - (10 : ℚ)) = ((-180 : ℤ) : ℚ) by norm_num,
      pyInt_intCast]
  have h2 : imageRiskTerm "unhealthy_nails" 10 = -180 := by
    rw [imageRiskTerm, if_pos ht2, show 20 * (1 - (10 : ℚ)) = ((-180 : ℤ) : ℚ) by norm_num,
      pyInt_intCast]
  have hb : bmiRiskTerm 50 = 0 := by norm_num [bmiRiskTerm]
  have hz : zRiskTerm 0 = 0 := by norm_num [zRiskTerm]
  have ha : ageAdjust 10 (0 + 0 + -180 + -180) = -360 := by norm_num [ageAdjust]
  show min 100 (ageAdjust 10
      (bmiRiskTerm 50 + zRiskTerm 0 + imageRiskTerm "unhealthy_skin" 10 +
        imageRiskTerm "unhealthy_nails" 10)) < 0
  rw [hb, hz, h1, h2, ha]
  norm_num

/-- Claim C1 (amended): for every percentile, z-score, pair of label strings and age,
and every skin/nail confidence at most 1 (in particular the classifier's actual
range [0.05, 0.99]), the risk score is an integer in [0, 100]. The original claim's
"any real confidence" fails: a confidence above 1 makes the score negative, since the
code only caps at 100 and never clamps below at 0. -/
theorem c1_risk_score_bounds (bp z : ℚ) (sh nh : String) (sc nc age : ℚ)
    (hsc : sc ≤ 1) (hnc : nc ≤ 1) :
    0 ≤ (calculate_risk_score bp z sh nh sc nc age).risk_score ∧
      (calculate_risk_score bp z sh nh sc nc age).risk_score ≤ 100 := by
  have htot : 0 ≤ ageAdjust age
      (bmiRiskTerm bp + zRiskTerm z + imageRiskTerm sh sc + imageRiskTerm nh nc) :=
    ageAdjust_nonneg _ (add_nonneg (add_nonneg (add_nonneg
      (bmiRiskTerm_nonneg bp) (zRiskTerm_nonneg z))
      (imageRiskTerm_nonneg sh hsc)) (imageRiskTerm_nonneg nh hnc))
  constructor
  · exact le_min (by norm_num) htot
  · exact min_le_left _ _

/-- Claim C1 (witness): the amended bound instantiated at a concrete input. -/
theorem c1_risk_score_bounds_witness :
    (0.7 : ℚ) ≤ 1 ∧ (0.8 : ℚ) ≤ 1 ∧
      (0 ≤ (calculate_risk_score 15 (-1.2) "unhealthy_skin" "healthy_nails" 0.7 0.8 8).risk_score ∧
        (calculate_risk_score 15 (-1.2) "unhealthy_skin" "healthy_nails" 0.7 0.8 8).risk_score ≤ 100) :=
  ⟨by norm_num, by norm_num,
    c1_risk_score_bounds 15 (-1.2) "unhealthy_skin" "healthy_nails" 0.7 0.8 8
      (by norm_num) (by norm_num)⟩

/-- Claim C2: the estimator is not deterministic — its z-score depends on the
`np.random.standard_normal` sample stream. For the same valid input
(age 8, bmi 16.5, male) two different sample streams give two different
(percentile, z_score) results, so the code contradicts the claim's requirement
of a deterministic inverse-CDF computation (code bug relative to the spec). -/
theorem c2_zscore_depends_on_random_samples :
    calculate_bmi_percentile_and_zscore 8 16.5 "male" [0] ≠
      calculate_bmi_percentile_and_zscore 8 16.5 "male" [1] := by
  have hg : pyLower "male" = "male" := by decide
  rw [calculate_bmi_percentile_and_zscore, calculate_bmi_percentile_and_zscore,
    calculate_bmi_percentile, hg]
  norm_num [argminAbs, argminAbsAux, agesList, valsAt, maleRows,
    percentileFromValues, interpolateChain, bandPercents,
    z_score_from_samples, npPercentile, sortRat, insertSorted, pyInt]

/-- Claim C3: the fallback decision is not per body-part domain. In a state where the
skin map has a usable centroid but the nail reference collection produced none, the
single global flag `_use_heuristic_fallback = no_nail_centroids or no_skin_centroids`
is set, so `predict_skin` takes the heuristic path even though skin centroids exist —
the code contradicts the claim's per-domain fallback (code bug relative to the spec). -/
theorem c3_fallback_is_global :
    has_valid_centroids [("healthy_skin", some [(0 : ℝ)]), ("unhealthy_skin", none)] = true ∧
      predict_skin_uses_heuristic
        [("healthy_nails", none), ("unhealthy_nails", none)]
        [("healthy_skin", some [(0 : ℝ)]), ("unhealthy_skin", none)] = true :=
  ⟨rfl, rfl⟩

/-- Claim C4: for a fixed accepted age and gender, the WHO percentile is monotone
non-decreasing in BMI: whenever the estimator returns percentiles for `b1 ≤ b2`
(same age and gender, `0 < b1`), the first percentile is at most the second. -/
theorem c4_percentile_monotone (age_years b1 b2 p1 p2 : ℚ) (gender : String)
    (hb1 : 0 < b1) (hb : b1 ≤ b2)
    (h1 : calculate_bmi_percentile age_years b1 gender = some p1)
    (h2 : calculate_bmi_percentile age_years b2 gender = some p2) :
    p1 ≤ p2 := by
  have hidx : argminAbs age_years agesList < 18 := by
    have h := argminAbs_lt age_years 2 [3, 4, 5, 6, 7, 8, 9, 10, 11, 12, 13, 14, 15, 16, 17, 18, 19]
    simpa [agesList] using h
  unfold calculate_bmi_percentile at h1 h2
  split_ifs at h1 h2 with hgate hage hmale
  all_goals rw [Option.some_inj] at h1 h2
  all_goals subst h1
  all_goals subst h2
  · obtain ⟨hpos, hsort⟩ := maleRows_ok (argminAbs age_years agesList) hidx
    exact percentileFromValues_mono' _ (by rw [valsAt_length]; rfl) hpos hsort b1 b2 hb
  · obtain ⟨hpos, hsort⟩ := femaleRows_ok (argminAbs age_years agesList) hidx
    exact percentileFromValues_mono' _ (by rw [valsAt_length]; rfl) hpos hsort b1 b2 hb

/-- Claim C4 (witness): at age 8, male, percentile(15) = 23.125 ≤ 56.25 = percentile(16). -/
theorem c4_percentile_monotone_witness :
    (0 : ℚ) < 15 ∧ (15 : ℚ) ≤ 16 ∧
      calculate_bmi_percentile 8 15 "male" = some 23.125 ∧
      calculate_bmi_percentile 8 16 "male" = some 56.25 ∧
      (23.125 : ℚ) ≤ 56.25 := by
  have e1 : calculate_bmi_percentile 8 15 "male" = some 23.125 := by
    have hg : pyLower "male" = "male" := by decide
    rw [calculate_bmi_percentile, hg]
    norm_num [argminAbs, argminAbsAux, agesList, valsAt, maleRows,
      percentileFromValues, interpolateChain, bandPercents]
  have e2 : calculate_bmi_percentile 8 16 "male" = some 56.25 := by
    have hg : pyLower "male" = "male" := by decide
    rw [calculate_bmi_percentile, hg]
    norm_num [argminAbs, argminAbsAux, agesList, valsAt, maleRows,
      percentileFromValues, interpolateChain, bandPercents]
  exact ⟨by norm_num, by norm_num, e1, e2,
    c4_percentile_monotone 8 15 16 23.125 56.25 "male" (by norm_num) (by norm_num) e1 e2⟩

/-- Claim C5 (counterexample): an exact tie between the two class centroids does not
produce confidence 0.5 as the claim states. At distance 0 to both centroids the code
keeps the first class and still applies the clamp/exp formula, giving 0.99. -/
theorem c5_tie_counterexample :
    (nearest_centroid [(0 : ℝ)] [("healthy_skin", some [0]), ("unhealthy_skin", some [0])]).2
      = 0.99 ∧ (0.99 : ℝ) ≠ 0.5 := by
  constructor
  · have hd : euclidDist [(0 : ℝ)] [0] = 0 := by
      simp [euclidDist]
    unfold nearest_centroid
    rw [List.foldl_cons, List.foldl_cons, List.foldl_nil, nearestStep_some_none,
      nearestStep_some_some, if_neg (lt_irrefl _)]
    rw [hd]
    norm_num [Real.exp_zero]
  · norm_num

/-- Claim C5 (amended): whenever at least one usable centroid exists, the classifier
returns a class whose centroid attains the minimal Euclidean distance (the first such
class in map order on ties — ties do not default to 0.5) and the confidence is
`clamp(exp(-d/100), 0.05, 0.99)` for that minimal distance d; the 0.5 default occurs
only when no usable centroid exists, i.e. the best distance stays infinite. -/
theorem c5_nearest_centroid_spec (feature : List ℝ)
    (class_to_centroid : List (String × Option (List ℝ)))
    (h : usableDists feature class_to_centroid ≠ []) :
    ∃ d : ℝ,
      ((nearest_centroid feature class_to_centroid).1, d) ∈
        usableDists feature class_to_centroid ∧
      (∀ q ∈ usableDists feature class_to_centroid, d ≤ q.2) ∧
      (nearest_centroid feature class_to_centroid).2 =
        max 0.05 (min 0.99 (Real.exp (-d / 100))) := by
  obtain ⟨c, d, heq, hmem, hmin⟩ := foldl_nearestStep_of_usable feature class_to_centroid h
  refine ⟨d, ?_, hmin, ?_⟩
  · unfold nearest_centroid
    rw [heq]
    exact hmem
  · unfold nearest_centroid
    rw [heq]

/-- Claim C5 (witness): the amended statement instantiated at a one-centroid map. -/
theorem c5_nearest_centroid_spec_witness :
    usableDists [(0 : ℝ)] [("healthy_skin", some [1])] ≠ [] ∧
      (∃ d : ℝ,
        ((nearest_centroid [(0 : ℝ)] [("healthy_skin", some [1])]).1, d) ∈
          usableDists [(0 : ℝ)] [("healthy_skin", some [1])] ∧
        (∀ q ∈ usableDists [(0 : ℝ)] [("healthy_skin", some [1])], d ≤ q.2) ∧
        (nearest_centroid [(0 : ℝ)] [("healthy_skin", some [1])]).2 =
          max 0.05 (min 0.99 (Real.exp (-d / 100)))) :=
  ⟨by simp [usableDists], c5_nearest_centroid_spec [(0 : ℝ)] [("healthy_skin", some [1])]
    (by simp [usableDists])⟩

/-- Claim C6 (counterexample): gender "MALE" is not in {male, female} as the claim
requires for rejection, yet the estimator accepts it (returning a result for any
sample stream element), because the code lower-cases the gender before the
membership test. -/
theorem c6_case_counterexample :
    ("MALE" ≠ "male" ∧ "MALE" ≠ "female") ∧
      (calculate_bmi_percentile_and_zscore 10 16 "MALE" [0]).isSome = true := by
  constructor
  · exact ⟨by decide, by decide⟩
  · have hg : pyLower "MALE" = "male" := by decide
    unfold calculate_bmi_percentile_and_zscore
    rw [calculate_bmi_percentile, hg]
    norm_num [argminAbs, argminAbsAux, agesList, valsAt, maleRows,
      percentileFromValues, interpolateChain, bandPercents,
      z_score_from_samples, npPercentile, sortRat, insertSorted, pyInt]

/-- Claim C6 (amended): for a nonempty sample stream, the estimator rejects exactly
the inputs whose lower-cased gender is not in {male, female}, whose age lies outside
[2, 19], or whose computed percentile falls outside [0, 100] (the value passed to
`np.percentile` is then out of range and numpy raises — this happens for bmi below 0
and for bmi far above the p97 threshold); every other input produces a result, and
out-of-range inputs are never clamped into range — they are rejected. -/
theorem c6_rejects_iff (age_years bmi : ℚ) (gender : String) (samples : List ℚ)
    (hs : samples ≠ []) :
    calculate_bmi_percentile_and_zscore age_years bmi gender samples = none ↔
      ((pyLower gender ≠ "male" ∧ pyLower gender ≠ "female") ∨
        age_years < 2 ∨ age_years > 19 ∨
        (∃ p, calculate_bmi_percentile age_years bmi gender = some p ∧
          (p < 0 ∨ 100 < p))) := by
  rcases hcalc : calculate_bmi_percentile age_years bmi gender with _ | p
  · have hrej := (calculate_bmi_percentile_none_iff age_years bmi gender).mp hcalc
    have hlhs : calculate_bmi_percentile_and_zscore age_years bmi gender samples = none := by
      unfold calculate_bmi_percentile_and_zscore
      rw [hcalc]
    rw [hlhs]
    constructor
    · intro _
      rcases hrej with h | h
      · exact Or.inl h
      · rcases h with h | h
        · exact Or.inr (Or.inl h)
        · exact Or.inr (Or.inr (Or.inl h))
    · intro _
      rfl
  · have hne : calculate_bmi_percentile age_years bmi gender ≠ none := by
      rw [hcalc]
      simp
    have hnot : ¬((pyLower gender ≠ "male" ∧ pyLower gender ≠ "female") ∨
        age_years < 2 ∨ age_years > 19) := fun hr =>
      hne ((calculate_bmi_percentile_none_iff age_years bmi gender).mpr hr)
    have hmatch : calculate_bmi_percentile_and_zscore age_years bmi gender samples =
        (match z_score_from_samples samples p with
          | none => none
          | some z => some (p, z)) := by
      unfold calculate_bmi_percentile_and_zscore
      rw [hcalc]
    rw [hmatch]
    have hz := z_score_from_samples_none_iff samples hs p
    constructor
    · intro hnone
      rcases hzz : z_score_from_samples samples p with _ | z
      · exact Or.inr (Or.inr (Or.inr ⟨p, rfl, hz.mp hzz⟩))
      · rw [hzz] at hnone
        exact Option.noConfusion hnone
    · rintro (hr | hr | hr | ⟨p', hp', hout⟩)
      · exact absurd (Or.inl hr) hnot
      · exact absurd (Or.inr (Or.inl hr)) hnot
      · exact absurd (Or.inr (Or.inr hr)) hnot
      · rw [Option.some_inj] at hp'
        subst hp'
        rw [hz.mpr hout]

/-- Claim C6 (witness): the amended iff instantiated at a concrete rejected input
(age 25 is out of range) with the nonempty sample stream [0]. -/
theorem c6_rejects_iff_witness :
    ([(0 : ℚ)] ≠ []) ∧
      (calculate_bmi_percentile_and_zscore 25 16 "male" [0] = none ↔
        ((pyLower "male" ≠ "male" ∧ pyLower "male" ≠ "female") ∨
          (25 : ℚ) < 2 ∨ (25 : ℚ) > 19 ∨
          (∃ p, calculate_bmi_percentile 25 16 "male" = some p ∧
            (p < 0 ∨ 100 < p)))) :=
  ⟨by simp, c6_rejects_iff 25 16 "male" [0] (by simp)⟩

/-- Claim C7: the golden regression case — percentile 15, z-score -1.2, unhealthy skin
at confidence 0.7, healthy nails at confidence 0.8, age 8 — lands in risk level
"Medium" (total 20 + 10 + 6 + 1 = 37, inside [20, 40)). -/
theorem c7_golden_medium :
    (calculate_risk_score 15 (-1.2) "unhealthy_skin" "healthy_nails" 0.7 0.8 8).risk_level
      = "Medium" := by
  have ht : pyIn "unhealthy" "unhealthy_skin" = true := by decide
  have ht2 : pyIn "unhealthy" "healthy_nails" = false := by decide
  have h1 : imageRiskTerm "unhealthy_skin" 0.7 = 6 := by
    rw [imageRiskTerm, if_pos ht, show 20 * (1 - (0.7 : ℚ)) = ((6 : ℤ) : ℚ) by norm_num,
      pyInt_intCast]
  have h2 : imageRiskTerm "healthy_nails" 0.8 = 1 := by
    rw [imageRiskTerm, if_neg (by rw [ht2]; exact Bool.false_ne_true),
      show 5 * (1 - (0.8 : ℚ)) = ((1 : ℤ) : ℚ) by norm_num, pyInt_intCast]
  have hb : bmiRiskTerm 15 = 20 := by norm_num [bmiRiskTerm]
  have hz : zRiskTerm (-1.2) = 10 := by
    have habs : |(-1.2 : ℚ)| = 1.2 := by
      rw [abs_of_neg (by norm_num)]
      norm_num
    rw [zRiskTerm, habs]
    norm_num
  have ha : ageAdjust 8 (20 + 10 + 6 + 1) = 37 := by norm_num [ageAdjust]
  show (if min 100 (ageAdjust 8
      (bmiRiskTerm 15 + zRiskTerm (-1.2) + imageRiskTerm "unhealthy_skin" 0.7 +
        imageRiskTerm "healthy_nails" 0.8)) < 20 then "Low"
    else if min 100 (ageAdjust 8 (bmiRiskTerm 15 + zRiskTerm (-1.2) +
        imageRiskTerm "unhealthy_skin" 0.7 + imageRiskTerm "healthy_nails" 0.8)) < 40 then "Medium"
    else if min 100 (ageAdjust 8 (bmiRiskTerm 15 + zRiskTerm (-1.2) +
        imageRiskTerm "unhealthy_skin" 0.7 + imageRiskTerm "healthy_nails" 0.8)) < 60 then "High"
    else "Critical") = "Medium"
  rw [hb, hz, h1, h2, ha]
  norm_num

/-- Claim C8: the BMI categorizer is total — it always returns one of the four
categories; when the estimator accepts the input the category is decided by the
percentile thresholds 5/85/97, and when the estimator rejects (bad gender or
out-of-range age) the adult thresholds 18.5/25/30 are used instead of an error. -/
theorem c8_category_total (bmi age_years : ℚ) (gender : String) :
    (get_bmi_category bmi age_years gender = "Underweight" ∨
      get_bmi_category bmi age_years gender = "Normal" ∨
      get_bmi_category bmi age_years gender = "Overweight" ∨
      get_bmi_category bmi age_years gender = "Obese") ∧
    (∀ p : ℚ, calculate_bmi_percentile age_years bmi gender = some p →
      get_bmi_category bmi age_years gender =
        (if p < 5 then "Underweight" else if p < 85 then "Normal"
          else if p < 97 then "Overweight" else "Obese")) ∧
    (calculate_bmi_percentile age_years bmi gender = none →
      get_bmi_category bmi age_years gender =
        (if bmi < 18.5 then "Underweight" else if bmi < 25 then "Normal"
          else if bmi < 30 then "Overweight" else "Obese")) := by
  have hsome : ∀ p : ℚ, calculate_bmi_percentile age_years bmi gender = some p →
      get_bmi_category bmi age_years gender =
        (if p < 5 then "Underweight" else if p < 85 then "Normal"
          else if p < 97 then "Overweight" else "Obese") := by
    intro p hp
    unfold get_bmi_category
    rw [hp]
  have hnone : calculate_bmi_percentile age_years bmi gender = none →
      get_bmi_category bmi age_years gender =
        (if bmi < 18.5 then "Underweight" else if bmi < 25 then "Normal"
          else if bmi < 30 then "Overweight" else "Obese") := by
    intro hp
    unfold get_bmi_category
    rw [hp]
  refine ⟨?_, hsome, hnone⟩
  rcases h : calculate_bmi_percentile age_years bmi gender with _ | p
  · rw [hnone h]
    split_ifs <;> simp
  · rw [hsome p h]
    split_ifs <;> simp

/-- Claim C8 (witness): an invalid gender falls back to the adult thresholds
(bmi 20 is "Normal"), and the accepted input (16.5, age 8, male) is categorized
"Normal" through the percentile path (percentile 71.875). -/
theorem c8_category_total_witness :
    get_bmi_category 20 8 "xyz" = "Normal" ∧ get_bmi_category 16.5 8 "male" = "Normal" := by
  have hnone : calculate_bmi_percentile 8 20 "xyz" = none := by
    have hg : pyLower "xyz" = "xyz" := by decide
    have hx1 : ("xyz" : String) ≠ "male" := by decide
    have hx2 : ("xyz" : String) ≠ "female" := by decide
    rw [calculate_bmi_percentile, hg, if_pos ⟨hx1, hx2⟩]
  have hsome : calculate_bmi_percentile 8 16.5 "male" = some 71.875 := by
    have hg : pyLower "male" = "male" := by decide
    rw [calculate_bmi_percentile, hg]
    norm_num [argminAbs, argminAbsAux, agesList, valsAt, maleRows,
      percentileFromValues, interpolateChain, bandPercents]
  constructor
  · have h := (c8_category_total 20 8 "xyz").2.2 hnone
    rw [h]
    norm_num
  · have h := (c8_category_total 16.5 8 "male").2.1 71.875 hsome
    rw [h]
    norm_num

/-- Claim C9: for every input, the breakdown fields of the returned assessment are
the final capped total clipped at each factor's ceiling — `min 40 risk_score`,
`min 20 risk_score`, `min 20 risk_score`, `min 20 risk_score` — not the individual
pre-cap contributions. -/
theorem c9_breakdown_running_cap (bp z : ℚ) (sh nh : String) (sc nc age : ℚ) :
    (calculate_risk_score bp z sh nh sc nc age).bmi_risk =
        min 40 (calculate_risk_score bp z sh nh sc nc age).risk_score ∧
      (calculate_risk_score bp z sh nh sc nc age).z_score_risk =
        min 20 (calculate_risk_score bp z sh nh sc nc age).risk_score ∧
      (calculate_risk_score bp z sh nh sc nc age).skin_risk =
        min 20 (calculate_risk_score bp z sh nh sc nc age).risk_score ∧
      (calculate_risk_score bp z sh nh sc nc age).nail_risk =
        min 20 (calculate_risk_score bp z sh nh sc nc age).risk_score :=
  ⟨rfl, rfl, rfl, rfl⟩
